import Mathlib

/-!
Verification of the color transfer implementation (`color_transfer.ipynb`).

The notebook implements Reinhard-style statistical color transfer:
`color_transfer(source, target)` converts both images BGR→LAB (via the
external `cv2.cvtColor`, then `astype("float32")`), computes per-channel
mean/std with `image_stats`, subtracts the target means from the target
channels, scales each channel by `StdTar/StdSrc`, adds the source means,
clips to [0,255], merges, casts to uint8 and converts back LAB→BGR.

Embedding choices, faithful to the numpy semantics the code relies on:
* Pixel arithmetic is modelled exactly over `ℚ` extended with the IEEE
  special values NaN, +inf and -inf (type `F` below); the code's only source of
  non-finite values is the unguarded division `StdTar/StdSrc` when a
  standard deviation is 0, and `0.0/0.0 = NaN`, `x/0.0 = ±inf` follow IEEE
  just as in numpy.  Rounding of finite float arithmetic is not modelled.
* `numpy.mean`/`numpy.var` are exact rationals on nonempty data and NaN on
  empty data (numpy warns and returns NaN for a 0-element mean/std).
* `numpy.std` takes a floating-point square root, so the exact model cannot
  compute it; instead `IsNpStd xs s` characterises the exact value
  (`s ≥ 0 ∧ s * s = variance`, and NaN exactly when the data is empty), and
  `color_transfer` receives the six standard deviations as arguments that
  every theorem constrains with `IsNpStd`.
* The external `cv2.cvtColor` conversions are pixelwise maps; the embedding
  is parametric in them (`toLAB`, `fromLAB`).  Concrete counterexamples
  instantiate them with the identity conversion `toLAB_id`/`fromLAB_id`;
  every refuted property fails for reasons independent of the conversion
  (NaN poisoning of the remap stage).
* `astype("uint8")` is a C float→uint8 cast: truncation toward zero; for
  values outside [0,255] the hardware wraps modulo 256 (via the int32
  conversion), and NaN/±inf convert to 0 (`castU8`).
-/

/-- Exact model of an IEEE floating-point value: a finite rational or one of
the special values +inf, -inf, NaN.  Finite arithmetic is exact (no rounding);
the special values follow the IEEE rules numpy uses. -/
inductive F where
  | fin : ℚ → F
  | inf : F
  | ninf : F
  | nan : F
deriving DecidableEq, Repr

namespace F

/-- IEEE addition (exact on finite values). -/
def add : F → F → F
  | fin a, fin b => fin (a + b)
  | fin _, inf => inf
  | fin _, ninf => ninf
  | inf, fin _ => inf
  | ninf, fin _ => ninf
  | inf, inf => inf
  | ninf, ninf => ninf
  | inf, ninf => nan
  | ninf, inf => nan
  | _, _ => nan

/-- IEEE negation. -/
def neg : F → F
  | fin a => fin (-a)
  | inf => ninf
  | ninf => inf
  | nan => nan

/-- IEEE subtraction, `x - y = x + (-y)`. -/
def sub (x y : F) : F := add x (neg y)

/-- IEEE multiplication; `±inf * 0 = NaN`. -/
def mul : F → F → F
  | fin a, fin b => fin (a * b)
  | fin a, inf => if 0 < a then inf else if a < 0 then ninf else nan
  | fin a, ninf => if 0 < a then ninf else if a < 0 then inf else nan
  | inf, fin b => if 0 < b then inf else if b < 0 then ninf else nan
  | ninf, fin b => if 0 < b then ninf else if b < 0 then inf else nan
  | inf, inf => inf
  | inf, ninf => ninf
  | ninf, inf => ninf
  | ninf, ninf => inf
  | _, _ => nan

/-- IEEE division; `0/0 = NaN`, `x/0 = ±inf` for finite `x ≠ 0`. -/
def div : F → F → F
  | fin a, fin b =>
      if b = 0 then (if a = 0 then nan else if 0 < a then inf else ninf)
      else fin (a / b)
  | fin _, inf => fin 0
  | fin _, ninf => fin 0
  | inf, fin b => if 0 ≤ b then inf else ninf
  | ninf, fin b => if 0 ≤ b then ninf else inf
  | _, _ => nan

end F

/-- `np.clip(x, 0, 255)` = `minimum(255, maximum(0, x))`: NaN propagates
(as with `np.minimum`/`np.maximum`), ±inf saturate to the bounds. -/
def clip255 : F → F
  | F.fin q => F.fin (min (max q 0) 255)
  | F.inf => F.fin 255
  | F.ninf => F.fin 0
  | F.nan => F.nan

/-- Truncation toward zero of a rational, as the C float→int cast does. -/
def qtrunc (q : ℚ) : ℤ := if 0 ≤ q then ⌊q⌋ else ⌈q⌉

/-- `astype("uint8")` on one value: truncation toward zero, with wrap-around
modulo 256 for out-of-range finite values (the x86 float→int path) and 0 for
NaN/±inf (the observed undefined-behavior result). -/
def castU8 : F → ℕ
  | F.fin q => (qtrunc q % 256).toNat
  | _ => 0

/-- An 8-bit 3-channel image: height, width and a row-major pixel list of
channel triples in [0,255]. -/
structure Img8 where
  height : ℕ
  width : ℕ
  pix : List (ℕ × ℕ × ℕ)
deriving DecidableEq, Repr

/-- A float 3-channel image (the transfer-space representation after
`cvtColor(..).astype("float32")`); values are exact rationals. -/
structure ImgF where
  height : ℕ
  width : ℕ
  pix : List (ℚ × ℚ × ℚ)
deriving DecidableEq, Repr

/-- A float 3-channel image whose values may be IEEE special values: the
result of the remap stage, where the unguarded std division can create
NaN/±inf. -/
structure ImgN where
  height : ℕ
  width : ℕ
  pix : List (F × F × F)
deriving DecidableEq, Repr

/-- First channel of `cv2.split` (the L plane). -/
def chanL (img : ImgF) : List ℚ := img.pix.map (fun p => p.1)

/-- Second channel of `cv2.split` (the a plane). -/
def chanA (img : ImgF) : List ℚ := img.pix.map (fun p => p.2.1)

/-- Third channel of `cv2.split` (the b plane). -/
def chanB (img : ImgF) : List ℚ := img.pix.map (fun p => p.2.2)

/-- `numpy.ndarray.mean()`: the exact arithmetic mean, NaN on empty data
(numpy emits a RuntimeWarning and returns NaN). -/
def npMean (xs : List ℚ) : F :=
  if xs.length = 0 then F.nan else F.fin (xs.sum / (xs.length : ℚ))

/-- The population variance `numpy.ndarray.var()` (denominator `N`):
exact on nonempty data, NaN on empty data. -/
def npVar (xs : List ℚ) : F :=
  if xs.length = 0 then F.nan
  else F.fin (((xs.map (fun x => (x - xs.sum / (xs.length : ℚ)) ^ 2)).sum) /
    (xs.length : ℚ))

/-- Characterisation of `numpy.ndarray.std()` in the exact model: the
standard deviation is the nonnegative square root of the population
variance, and NaN exactly when the data is empty.  (numpy computes a
floating-point approximation of this square root; the exact model works
with inputs whose variance is a perfect square.) -/
def IsNpStd (xs : List ℚ) (s : F) : Prop :=
  match s, npVar xs with
  | F.fin r, F.fin q => 0 ≤ r ∧ r * r = q
  | F.nan, F.nan => True
  | _, _ => False

/-- The six per-channel statistics `image_stats` returns:
`(lMean, lStd, aMean, aStd, bMean, bStd)`. -/
structure LabStats where
  lMean : F
  lStd : F
  aMean : F
  aStd : F
  bMean : F
  bStd : F
deriving DecidableEq, Repr

/-- `image_stats`, split into its computable part: the three channel means
(the code's `l.mean()`, `a.mean()`, `b.mean()`), paired with supplied
standard-deviation values `sl, sa, sb` (the code's `l.std()`, `a.std()`,
`b.std()`, which the exact model characterises by `IsNpStd`). -/
def image_stats (img : ImgF) (sl sa sb : F) : LabStats :=
  { lMean := npMean (chanL img), lStd := sl
    aMean := npMean (chanA img), aStd := sa
    bMean := npMean (chanB img), bStd := sb }

/-- The std components of `image_stats` really are the image's standard
deviations. -/
def IsImageStds (img : ImgF) (sl sa sb : F) : Prop :=
  IsNpStd (chanL img) sl ∧ IsNpStd (chanA img) sa ∧ IsNpStd (chanB img) sb

/-- The middle of `color_transfer`: split the converted target, subtract the
target means (`l -= lMeanTar` …), scale by `lStdTar/lStdSrc` (… written as
`l = (lStdTar/lStdSrc)*l`), add the source means (`l += lMeanSrc`), merge.
`tarSt` are the target's statistics, `srcSt` the source's. -/
def remapImage (tar : ImgF) (tarSt srcSt : LabStats) : ImgN :=
  { height := tar.height, width := tar.width
    pix := tar.pix.map (fun p =>
      (F.add (F.mul (F.div tarSt.lStd srcSt.lStd)
        (F.sub (F.fin p.1) tarSt.lMean)) srcSt.lMean,
       F.add (F.mul (F.div tarSt.aStd srcSt.aStd)
        (F.sub (F.fin p.2.1) tarSt.aMean)) srcSt.aMean,
       F.add (F.mul (F.div tarSt.bStd srcSt.bStd)
        (F.sub (F.fin p.2.2) tarSt.bMean)) srcSt.bMean)) }

/-- The clipping stage: `np.clip(l, 0, 255)` on every channel. -/
def clipImage (img : ImgN) : ImgN :=
  { height := img.height, width := img.width
    pix := img.pix.map (fun p => (clip255 p.1, clip255 p.2.1, clip255 p.2.2)) }

/-- `transfer.astype("uint8")`: cast every channel value to uint8. -/
def castImage (img : ImgN) : Img8 :=
  { height := img.height, width := img.width
    pix := img.pix.map (fun p => (castU8 p.1, castU8 p.2.1, castU8 p.2.2)) }

/-- `cv2.cvtColor(img, COLOR_BGR2LAB).astype("float32")`: an external
pixelwise conversion, parametric. -/
def cvtImage8F (toLAB : ℕ × ℕ × ℕ → ℚ × ℚ × ℚ) (img : Img8) : ImgF :=
  { height := img.height, width := img.width, pix := img.pix.map toLAB }

/-- `cv2.cvtColor(img, COLOR_LAB2BGR)` on an 8-bit image: an external
pixelwise conversion, parametric. -/
def cvtImage88 (fromLAB : ℕ × ℕ × ℕ → ℕ × ℕ × ℕ) (img : Img8) : Img8 :=
  { height := img.height, width := img.width, pix := img.pix.map fromLAB }

/-- `color_transfer(source, target)`, parametric in the two external
`cv2.cvtColor` conversions and in the six standard deviations that numpy's
`.std()` returns (constrained by `IsImageStds` in the theorems): convert
both images, compute stats, remap the target (subtract target means, scale
by `StdTar/StdSrc`, add source means), clip to [0,255], cast to uint8,
convert back. -/
def color_transfer (toLAB : ℕ × ℕ × ℕ → ℚ × ℚ × ℚ)
    (fromLAB : ℕ × ℕ × ℕ → ℕ × ℕ × ℕ) (source target : Img8)
    (lStdSrc aStdSrc bStdSrc lStdTar aStdTar bStdTar : F) : Img8 :=
  let src := cvtImage8F toLAB source
  let tar := cvtImage8F toLAB target
  let srcSt := image_stats src lStdSrc aStdSrc bStdSrc
  let tarSt := image_stats tar lStdTar aStdTar bStdTar
  cvtImage88 fromLAB (castImage (clipImage (remapImage tar tarSt srcSt)))

/-- The remap formula exactly as the specification words it (for the
refinement comparison): `v' = (v - targetMean) * (sourceStd / targetStd)
+ sourceMean`. -/
def remapSpecPixel (v tMean tStd sMean sStd : F) : F :=
  F.add (F.mul (F.sub v tMean) (F.div sStd tStd)) sMean

/-- Identity model of the BGR→LAB conversion (the external `cv2.cvtColor`
is pixelwise; the refuted properties below fail independently of the
concrete conversion, so counterexamples use the identity). -/
def toLAB_id (p : ℕ × ℕ × ℕ) : ℚ × ℚ × ℚ := ((p.1 : ℚ), (p.2.1 : ℚ), (p.2.2 : ℚ))

/-- Identity model of the LAB→BGR back-conversion. -/
def fromLAB_id (p : ℕ × ℕ × ℕ) : ℕ × ℕ × ℕ := p

/-! Helper lemmas about the statistics in the exact model. -/

lemma npMean_of_ne_nil {xs : List ℚ} (h : xs ≠ []) :
    npMean xs = F.fin (xs.sum / (xs.length : ℚ)) := by
  simp [npMean, List.length_eq_zero, h]

lemma npVar_of_ne_nil {xs : List ℚ} (h : xs ≠ []) :
    npVar xs = F.fin
      (((xs.map (fun x => (x - xs.sum / (xs.length : ℚ)) ^ 2)).sum) /
        (xs.length : ℚ)) := by
  simp [npVar, List.length_eq_zero, h]

lemma npMean_const {xs : List ℚ} {k : ℚ} (h : xs ≠ [])
    (hc : ∀ x ∈ xs, x = k) : npMean xs = F.fin k := by
  have hlen : (xs.length : ℚ) ≠ 0 := by
    simpa using List.length_eq_zero.not.mpr h
  have hsum : xs.sum = (xs.length : ℚ) * k := by
    have := List.sum_eq_card_nsmul xs k hc
    simpa [nsmul_eq_mul] using this
  rw [npMean_of_ne_nil h, hsum]
  congr 1
  field_simp

lemma npVar_const {xs : List ℚ} {k : ℚ} (h : xs ≠ [])
    (hc : ∀ x ∈ xs, x = k) : npVar xs = F.fin 0 := by
  have hlen : (xs.length : ℚ) ≠ 0 := by
    simpa using List.length_eq_zero.not.mpr h
  have hsum : xs.sum = (xs.length : ℚ) * k := by
    have := List.sum_eq_card_nsmul xs k hc
    simpa [nsmul_eq_mul] using this
  have hdev : ∀ y ∈ xs.map (fun x => (x - xs.sum / (xs.length : ℚ)) ^ 2), y = 0 := by
    intro y hy
    obtain ⟨x, hx, rfl⟩ := List.mem_map.mp hy
    have hxk := hc x hx
    rw [hxk, hsum]
    field_simp
  have hdevsum := List.sum_eq_card_nsmul _ 0 hdev
  rw [npVar_of_ne_nil h, hdevsum]
  simp

/-- Channel selector on a float pixel triple (0 = L, 1 = a, 2 = b). -/
def pixC : Fin 3 → ℚ × ℚ × ℚ → ℚ
  | 0, p => p.1
  | 1, p => p.2.1
  | 2, p => p.2.2

/-- Channel `c` of a float image, as `cv2.split` produces it. -/
def chanOf (c : Fin 3) (img : ImgF) : List ℚ := img.pix.map (pixC c)

lemma isNpStd_var_fin {xs : List ℚ} {s : F} {q : ℚ} (hvar : npVar xs = F.fin q)
    (h : IsNpStd xs s) : ∃ r, s = F.fin r ∧ 0 ≤ r ∧ r * r = q := by
  unfold IsNpStd at h
  rw [hvar] at h
  cases s with
  | fin r => exact ⟨r, rfl, h⟩
  | inf => exact h.elim
  | ninf => exact h.elim
  | nan => exact h.elim

/-- Claim C7: for every non-empty float image in which every pixel of channel
`c` has the same constant value `k`, the statistics are mean = k and standard
deviation = 0 for that channel; and the variance is the population variance
(denominator N over all samples): for the two-sample data `[0, 2]` it equals
1, where the N-1 (sample) convention would give 2. -/
theorem C7_constant_channel_stats :
    (∀ (img : ImgF) (c : Fin 3) (k : ℚ), img.pix ≠ [] →
      (∀ p ∈ img.pix, pixC c p = k) →
      npMean (chanOf c img) = F.fin k ∧ npVar (chanOf c img) = F.fin 0 ∧
      ∀ s : F, IsNpStd (chanOf c img) s → s = F.fin 0) ∧
    npVar [0, 2] = F.fin 1 ∧ F.fin (1 : ℚ) ≠ F.fin ((0 - 1) ^ 2 + (2 - 1) ^ 2) := by
  refine ⟨?_, ?_, ?_⟩
  · intro img c k hne hconst
    have hchan_ne : chanOf c img ≠ [] := by
      simp [chanOf, hne]
    have hchan_const : ∀ x ∈ chanOf c img, x = k := by
      intro x hx
      obtain ⟨p, hp, rfl⟩ := List.mem_map.mp hx
      exact hconst p hp
    have hvar := npVar_const hchan_ne hchan_const
    refine ⟨npMean_const hchan_ne hchan_const, hvar, ?_⟩
    intro s hs
    obtain ⟨r, rfl, hr0, hrr⟩ := isNpStd_var_fin hvar hs
    have : r = 0 := by nlinarith
    rw [this]
  · show npVar [(0 : ℚ), 2] = F.fin 1
    rw [npVar_of_ne_nil (by simp)]
    norm_num
  · simp
    norm_num

/-- Witness for C7 at a concrete image whose L channel is constantly 5. -/
theorem C7_constant_channel_stats_witness :
    npMean (chanOf 0 ⟨1, 2, [(5, 1, 2), (5, 3, 4)]⟩) = F.fin 5 ∧
    npVar (chanOf 0 ⟨1, 2, [(5, 1, 2), (5, 3, 4)]⟩) = F.fin 0 := by
  have h := C7_constant_channel_stats.1 ⟨1, 2, [(5, 1, 2), (5, 3, 4)]⟩ 0 5
    (by simp)
    (by
      intro p hp
      simp only [List.mem_cons, List.not_mem_nil, or_false] at hp
      rcases hp with rfl | rfl <;> rfl)
  exact ⟨h.1, h.2.1⟩

lemma isNpStd_of_var {xs : List ℚ} {r : ℚ} (h0 : 0 ≤ r)
    (hvar : npVar xs = F.fin (r * r)) : IsNpStd xs (F.fin r) := by
  unfold IsNpStd
  rw [hvar]
  exact ⟨h0, rfl⟩

/-- Claim C1 (amended): inside `color_transfer` the remap stage produces,
before clipping, `v' = (targetStd[c] / sourceStd[c]) * (v - targetMean[c])
+ sourceMean[c]` — the scale factor is the ratio of the TARGET channel's
standard deviation to the SOURCE channel's (the code computes
`lStdTar/lStdSrc`), the reciprocal of the ratio the specification states. -/
theorem C1_remap_scale_factor (toLAB : ℕ × ℕ × ℕ → ℚ × ℚ × ℚ)
    (source target : Img8) (sl sa sb tl ta tb : F)
    (hs : IsImageStds (cvtImage8F toLAB source) sl sa sb)
    (ht : IsImageStds (cvtImage8F toLAB target) tl ta tb) (i : ℕ) :
    (remapImage (cvtImage8F toLAB target)
        (image_stats (cvtImage8F toLAB target) tl ta tb)
        (image_stats (cvtImage8F toLAB source) sl sa sb)).pix.get? i =
      ((cvtImage8F toLAB target).pix.get? i).map (fun p =>
        (F.add (F.mul (F.div tl sl)
          (F.sub (F.fin p.1) (npMean (chanL (cvtImage8F toLAB target)))))
          (npMean (chanL (cvtImage8F toLAB source))),
         F.add (F.mul (F.div ta sa)
          (F.sub (F.fin p.2.1) (npMean (chanA (cvtImage8F toLAB target)))))
          (npMean (chanA (cvtImage8F toLAB source))),
         F.add (F.mul (F.div tb sb)
          (F.sub (F.fin p.2.2) (npMean (chanB (cvtImage8F toLAB target)))))
          (npMean (chanB (cvtImage8F toLAB source))))) := by
  simp [remapImage, image_stats, List.get?_map]

/-- Witness for C1 at concrete images: source channels are each `[0, 4]`
(mean 2, std 2), target channels `[0, 2]` (mean 1, std 1); the first target
pixel value 0 remaps to `(1/2) * (0 - 1) + 2 = 3/2`, not the value 0 the
specification's formula `(0 - 1) * (2/1) + 2` would give. -/
theorem C1_remap_scale_factor_witness :
    (remapImage (cvtImage8F toLAB_id ⟨1, 2, [(0, 0, 0), (2, 2, 2)]⟩)
        (image_stats (cvtImage8F toLAB_id ⟨1, 2, [(0, 0, 0), (2, 2, 2)]⟩)
          (F.fin 1) (F.fin 1) (F.fin 1))
        (image_stats (cvtImage8F toLAB_id ⟨1, 2, [(0, 0, 0), (4, 4, 4)]⟩)
          (F.fin 2) (F.fin 2) (F.fin 2))).pix.get? 0 =
      some (F.fin (3 / 2), F.fin (3 / 2), F.fin (3 / 2)) := by
  have h := C1_remap_scale_factor toLAB_id ⟨1, 2, [(0, 0, 0), (4, 4, 4)]⟩
    ⟨1, 2, [(0, 0, 0), (2, 2, 2)]⟩ (F.fin 2) (F.fin 2) (F.fin 2)
    (F.fin 1) (F.fin 1) (F.fin 1) ?_ ?_ 0
  · rw [h]
    simp only [cvtImage8F, toLAB_id, chanL, chanA, chanB, npMean,
      List.map_cons, List.map_nil, List.length_cons, List.length_nil,
      List.sum_cons, List.sum_nil]
    norm_num [F.div, F.sub, F.neg, F.add, F.mul]
  · refine ⟨?_, ?_, ?_⟩ <;>
    · apply isNpStd_of_var (r := 2) (by norm_num)
      rw [npVar_of_ne_nil (by simp [chanL, chanA, chanB, cvtImage8F])]
      simp only [chanL, chanA, chanB, cvtImage8F, toLAB_id, List.map_cons,
        List.map_nil, List.length_cons, List.length_nil, List.sum_cons,
        List.sum_nil]
      norm_num
  · refine ⟨?_, ?_, ?_⟩ <;>
    · apply isNpStd_of_var (r := 1) (by norm_num)
      rw [npVar_of_ne_nil (by simp [chanL, chanA, chanB, cvtImage8F])]
      simp only [chanL, chanA, chanB, cvtImage8F, toLAB_id, List.map_cons,
        List.map_nil, List.length_cons, List.length_nil, List.sum_cons,
        List.sum_nil]
      norm_num

/-- Counterexample to Claim C1 as stated: with source channel data `[0, 4]`
(mean 2, std 2) and target channel data `[0, 2]` (mean 1, std 1), the remap
stage maps the target value 0 to `(1/2) * (0 - 1) + 2 = 3/2`, whereas the
specification's formula `(v - targetMean) * (sourceStd / targetStd) +
sourceMean` gives `(0 - 1) * (2/1) + 2 = 0`. -/
theorem C1_counterexample :
    IsImageStds (cvtImage8F toLAB_id ⟨1, 2, [(0, 0, 0), (4, 4, 4)]⟩)
      (F.fin 2) (F.fin 2) (F.fin 2) ∧
    IsImageStds (cvtImage8F toLAB_id ⟨1, 2, [(0, 0, 0), (2, 2, 2)]⟩)
      (F.fin 1) (F.fin 1) (F.fin 1) ∧
    (remapImage (cvtImage8F toLAB_id ⟨1, 2, [(0, 0, 0), (2, 2, 2)]⟩)
        (image_stats (cvtImage8F toLAB_id ⟨1, 2, [(0, 0, 0), (2, 2, 2)]⟩)
          (F.fin 1) (F.fin 1) (F.fin 1))
        (image_stats (cvtImage8F toLAB_id ⟨1, 2, [(0, 0, 0), (4, 4, 4)]⟩)
          (F.fin 2) (F.fin 2) (F.fin 2))).pix.get? 0 =
      some (F.fin (3 / 2), F.fin (3 / 2), F.fin (3 / 2)) ∧
    remapSpecPixel (F.fin 0)
      (npMean (chanL (cvtImage8F toLAB_id ⟨1, 2, [(0, 0, 0), (2, 2, 2)]⟩)))
      (F.fin 1)
      (npMean (chanL (cvtImage8F toLAB_id ⟨1, 2, [(0, 0, 0), (4, 4, 4)]⟩)))
      (F.fin 2) = F.fin 0 ∧
    F.fin (3 / 2) ≠ F.fin (0 : ℚ) := by
  refine ⟨?_, ?_, ?_, ?_, ?_⟩
  · refine ⟨?_, ?_, ?_⟩ <;>
    · apply isNpStd_of_var (r := 2) (by norm_num)
      rw [npVar_of_ne_nil (by simp [chanL, chanA, chanB, cvtImage8F])]
      simp only [chanL, chanA, chanB, cvtImage8F, toLAB_id, List.map_cons,
        List.map_nil, List.length_cons, List.length_nil, List.sum_cons,
        List.sum_nil]
      norm_num
  · refine ⟨?_, ?_, ?_⟩ <;>
    · apply isNpStd_of_var (r := 1) (by norm_num)
      rw [npVar_of_ne_nil (by simp [chanL, chanA, chanB, cvtImage8F])]
      simp only [chanL, chanA, chanB, cvtImage8F, toLAB_id, List.map_cons,
        List.map_nil, List.length_cons, List.length_nil, List.sum_cons,
        List.sum_nil]
      norm_num
  · simp only [remapImage, image_stats, cvtImage8F, toLAB_id, chanL, chanA,
      chanB, npMean, List.map_cons, List.map_nil, List.length_cons,
      List.length_nil, List.sum_cons, List.sum_nil]
    norm_num [F.div, F.sub, F.neg, F.add, F.mul]
  · simp only [remapSpecPixel, cvtImage8F, toLAB_id, chanL, npMean,
      List.map_cons, List.map_nil, List.length_cons, List.length_nil,
      List.sum_cons, List.sum_nil]
    norm_num [F.div, F.sub, F.neg, F.add, F.mul]
  · simp only [ne_eq, F.fin.injEq]
    norm_num

/-- Channel selector on a remapped (possibly non-finite) pixel triple. -/
def getCF : Fin 3 → F × F × F → F
  | 0, p => p.1
  | 1, p => p.2.1
  | 2, p => p.2.2

/-- Channel selector on an 8-bit pixel triple. -/
def getC8 : Fin 3 → ℕ × ℕ × ℕ → ℕ
  | 0, p => p.1
  | 1, p => p.2.1
  | 2, p => p.2.2

/-- The std field of `image_stats` for channel `c`. -/
def stStd (st : LabStats) : Fin 3 → F
  | 0 => st.lStd
  | 1 => st.aStd
  | 2 => st.bStd

/-- The mean field of `image_stats` for channel `c`. -/
def stMean (st : LabStats) : Fin 3 → F
  | 0 => st.lMean
  | 1 => st.aMean
  | 2 => st.bMean

lemma stMean_image_stats (img : ImgF) (sl sa sb : F) (c : Fin 3) :
    stMean (image_stats img sl sa sb) c = npMean (chanOf c img) := by
  fin_cases c <;> rfl

lemma getCF_remapImage {tarSt srcSt : LabStats} {p : ℚ × ℚ × ℚ}
    (c : Fin 3) :
    getCF c
      (F.add (F.mul (F.div tarSt.lStd srcSt.lStd)
        (F.sub (F.fin p.1) tarSt.lMean)) srcSt.lMean,
       F.add (F.mul (F.div tarSt.aStd srcSt.aStd)
        (F.sub (F.fin p.2.1) tarSt.aMean)) srcSt.aMean,
       F.add (F.mul (F.div tarSt.bStd srcSt.bStd)
        (F.sub (F.fin p.2.2) tarSt.bMean)) srcSt.bMean) =
      F.add (F.mul (F.div (stStd tarSt c) (stStd srcSt c))
        (F.sub (F.fin (pixC c p)) (stMean tarSt c))) (stMean srcSt c) := by
  fin_cases c <;> rfl

lemma isNpStd_fin_var {xs : List ℚ} {r : ℚ} (h : IsNpStd xs (F.fin r)) :
    npVar xs = F.fin (r * r) := by
  unfold IsNpStd at h
  cases hvar : npVar xs with
  | fin q => rw [hvar] at h; rw [h.2]
  | inf => rw [hvar] at h; exact h.elim
  | ninf => rw [hvar] at h; exact h.elim
  | nan => rw [hvar] at h; exact h.elim

lemma ne_nil_of_npVar_fin {xs : List ℚ} {q : ℚ} (h : npVar xs = F.fin q) :
    xs ≠ [] := by
  intro hnil
  rw [hnil] at h
  simp [npVar] at h

/-- The std components selected by `IsImageStds` through `stStd`. -/
lemma isImageStds_sel {img : ImgF} {sl sa sb : F}
    (h : IsImageStds img sl sa sb) (c : Fin 3) :
    IsNpStd (chanOf c img) (stStd (image_stats img sl sa sb) c) := by
  obtain ⟨h0, h1, h2⟩ := h
  fin_cases c <;> simpa [stStd, image_stats, chanOf, chanL, chanA, chanB, pixC]

/-- Claim C2 (amended): when the target's channel-`c` standard deviation is 0
and the source's is a nonzero finite value `r`, the code's scale factor for
that channel is `0/r = 0` — not the 1.0 fallback the specification mandates —
yet every remapped value in that channel still equals `sourceMean[c]` and no
NaN is produced.  (When the source std is also 0 the unguarded division gives
`0/0 = NaN` and the whole channel becomes NaN; see the counterexample.) -/
theorem C2_zero_target_std (toLAB : ℕ × ℕ × ℕ → ℚ × ℚ × ℚ)
    (source target : Img8) (sl sa sb tl ta tb : F) (c : Fin 3) (r : ℚ)
    (hs : IsImageStds (cvtImage8F toLAB source) sl sa sb)
    (ht : IsImageStds (cvtImage8F toLAB target) tl ta tb)
    (hsrcne : (cvtImage8F toLAB source).pix ≠ [])
    (htar0 : stStd (image_stats (cvtImage8F toLAB target) tl ta tb) c = F.fin 0)
    (hsrcr : stStd (image_stats (cvtImage8F toLAB source) sl sa sb) c = F.fin r)
    (hr : r ≠ 0) :
    F.div (stStd (image_stats (cvtImage8F toLAB target) tl ta tb) c)
      (stStd (image_stats (cvtImage8F toLAB source) sl sa sb) c) = F.fin 0 ∧
    ∀ q ∈ (remapImage (cvtImage8F toLAB target)
        (image_stats (cvtImage8F toLAB target) tl ta tb)
        (image_stats (cvtImage8F toLAB source) sl sa sb)).pix,
      getCF c q = npMean (chanOf c (cvtImage8F toLAB source)) ∧ getCF c q ≠ F.nan := by
  have hsrcchan_ne : chanOf c (cvtImage8F toLAB source) ≠ [] := by
    simp [chanOf, hsrcne]
  have hms := npMean_of_ne_nil hsrcchan_ne
  have htstd := isImageStds_sel ht c
  rw [htar0] at htstd
  have htvar := isNpStd_fin_var htstd
  have htchan_ne := ne_nil_of_npVar_fin htvar
  have hmt := npMean_of_ne_nil htchan_ne
  constructor
  · rw [htar0, hsrcr]
    simp [F.div, hr]
  · intro q hq
    simp only [remapImage, List.mem_map] at hq
    obtain ⟨p, hp, rfl⟩ := hq
    rw [getCF_remapImage c, htar0, hsrcr, stMean_image_stats,
      stMean_image_stats, hmt, hms]
    constructor
    · simp [F.div, hr, F.sub, F.neg, F.add, F.mul]
    · simp [F.div, hr, F.sub, F.neg, F.add, F.mul]

/-- Witness for C2: target `[(5,5,5)]` (std 0), source channels `[0, 2]`
(mean 1, std 1); the single remapped pixel is `(1, 1, 1)` = the source means,
finite. -/
theorem C2_zero_target_std_witness :
    getCF 0 (F.fin 1, F.fin 1, F.fin 1) =
      npMean (chanOf 0 (cvtImage8F toLAB_id ⟨1, 2, [(0, 0, 0), (2, 2, 2)]⟩)) ∧
    getCF 0 (F.fin 1, F.fin 1, F.fin 1) ≠ F.nan := by
  have h := (C2_zero_target_std toLAB_id ⟨1, 2, [(0, 0, 0), (2, 2, 2)]⟩
    ⟨1, 1, [(5, 5, 5)]⟩ (F.fin 1) (F.fin 1) (F.fin 1)
    (F.fin 0) (F.fin 0) (F.fin 0) 0 1
    (by
      refine ⟨?_, ?_, ?_⟩ <;>
      · apply isNpStd_of_var (r := 1) (by norm_num)
        rw [npVar_of_ne_nil (by simp [chanL, chanA, chanB, cvtImage8F])]
        simp only [chanL, chanA, chanB, cvtImage8F, toLAB_id, List.map_cons,
          List.map_nil, List.length_cons, List.length_nil, List.sum_cons,
          List.sum_nil]
        norm_num)
    (by
      refine ⟨?_, ?_, ?_⟩ <;>
      · apply isNpStd_of_var (r := 0) (by norm_num)
        rw [npVar_of_ne_nil (by simp [chanL, chanA, chanB, cvtImage8F])]
        simp only [chanL, chanA, chanB, cvtImage8F, toLAB_id, List.map_cons,
          List.map_nil, List.length_cons, List.length_nil, List.sum_cons,
          List.sum_nil]
        norm_num)
    (by simp [cvtImage8F]) rfl rfl one_ne_zero).2
  apply h
  simp only [remapImage, image_stats, cvtImage8F, toLAB_id, chanL, chanA,
    chanB, npMean, List.map_cons, List.map_nil, List.length_cons,
    List.length_nil, List.sum_cons, List.sum_nil]
  norm_num [F.div, F.sub, F.neg, F.add, F.mul]

/-- Counterexample to Claim C2 as stated: target `[(5,5,5)]` has channel
standard deviation 0, source `[(7,7,7)]` also; the unguarded scale factor is
`0/0 = NaN` and the remapped pixel is NaN in every channel — not the source
mean 7, and not NaN-free as the claim requires. -/
theorem C2_counterexample :
    IsImageStds (cvtImage8F toLAB_id ⟨1, 1, [(7, 7, 7)]⟩)
      (F.fin 0) (F.fin 0) (F.fin 0) ∧
    IsImageStds (cvtImage8F toLAB_id ⟨1, 1, [(5, 5, 5)]⟩)
      (F.fin 0) (F.fin 0) (F.fin 0) ∧
    (remapImage (cvtImage8F toLAB_id ⟨1, 1, [(5, 5, 5)]⟩)
        (image_stats (cvtImage8F toLAB_id ⟨1, 1, [(5, 5, 5)]⟩)
          (F.fin 0) (F.fin 0) (F.fin 0))
        (image_stats (cvtImage8F toLAB_id ⟨1, 1, [(7, 7, 7)]⟩)
          (F.fin 0) (F.fin 0) (F.fin 0))).pix = [(F.nan, F.nan, F.nan)] ∧
    npMean (chanL (cvtImage8F toLAB_id ⟨1, 1, [(7, 7, 7)]⟩)) = F.fin 7 ∧
    F.nan ≠ F.fin (7 : ℚ) := by
  refine ⟨?_, ?_, ?_, ?_, by simp⟩
  · refine ⟨?_, ?_, ?_⟩ <;>
    · apply isNpStd_of_var (r := 0) (by norm_num)
      rw [npVar_of_ne_nil (by simp [chanL, chanA, chanB, cvtImage8F])]
      simp only [chanL, chanA, chanB, cvtImage8F, toLAB_id, List.map_cons,
        List.map_nil, List.length_cons, List.length_nil, List.sum_cons,
        List.sum_nil]
      norm_num
  · refine ⟨?_, ?_, ?_⟩ <;>
    · apply isNpStd_of_var (r := 0) (by norm_num)
      rw [npVar_of_ne_nil (by simp [chanL, chanA, chanB, cvtImage8F])]
      simp only [chanL, chanA, chanB, cvtImage8F, toLAB_id, List.map_cons,
        List.map_nil, List.length_cons, List.length_nil, List.sum_cons,
        List.sum_nil]
      norm_num
  · simp only [remapImage, image_stats, cvtImage8F, toLAB_id, chanL, chanA,
      chanB, npMean, List.map_cons, List.map_nil, List.length_cons,
      List.length_nil, List.sum_cons, List.sum_nil]
    norm_num [F.div, F.sub, F.neg, F.add, F.mul]
  · simp only [chanL, cvtImage8F, toLAB_id, npMean, List.map_cons,
      List.map_nil, List.length_cons, List.length_nil, List.sum_cons,
      List.sum_nil]
    norm_num

lemma F.mul_nan_left (x : F) : F.mul F.nan x = F.nan := by cases x <;> rfl

lemma F.add_nan_left (x : F) : F.add F.nan x = F.nan := by cases x <;> rfl

lemma castU8_nan : castU8 F.nan = 0 := rfl

lemma npMean_replicate {n : ℕ} (hn : n ≠ 0) (a : ℚ) :
    npMean (List.replicate n a) = F.fin a :=
  npMean_const (by simp [hn]) (fun _ hx => List.eq_of_mem_replicate hx)

lemma npVar_replicate {n : ℕ} (hn : n ≠ 0) (a : ℚ) :
    npVar (List.replicate n a) = F.fin 0 :=
  npVar_const (by simp [hn]) (fun _ hx => List.eq_of_mem_replicate hx)

/-- A uniform image has standard deviation 0 in every channel, whatever the
(pixelwise) conversion to transfer space does. -/
lemma isImageStds_uniform (toLAB : ℕ × ℕ × ℕ → ℚ × ℚ × ℚ) (p0 : ℕ × ℕ × ℕ)
    {n h w : ℕ} (hn : n ≠ 0) :
    IsImageStds (cvtImage8F toLAB ⟨h, w, List.replicate n p0⟩)
      (F.fin 0) (F.fin 0) (F.fin 0) := by
  refine ⟨?_, ?_, ?_⟩
  · rw [show chanL (cvtImage8F toLAB ⟨h, w, List.replicate n p0⟩) =
      List.replicate n (toLAB p0).1 from by simp [chanL, cvtImage8F]]
    exact isNpStd_of_var le_rfl (by rw [npVar_replicate hn]; norm_num)
  · rw [show chanA (cvtImage8F toLAB ⟨h, w, List.replicate n p0⟩) =
      List.replicate n (toLAB p0).2.1 from by simp [chanA, cvtImage8F]]
    exact isNpStd_of_var le_rfl (by rw [npVar_replicate hn]; norm_num)
  · rw [show chanB (cvtImage8F toLAB ⟨h, w, List.replicate n p0⟩) =
      List.replicate n (toLAB p0).2.2 from by simp [chanB, cvtImage8F]]
    exact isNpStd_of_var le_rfl (by rw [npVar_replicate hn]; norm_num)

/-- Claim C3 (amended): for the 2×2 uniform target (100,100,100) and the 2×2
uniform source (200,50,50), every channel standard deviation is 0, so the
unguarded scale factor is `0/0 = NaN`; the remap stage makes every pixel NaN
in all channels, the uint8 cast turns NaN into 0, and the output is the
uniform image whose pixels are `fromLAB (0,0,0)` — not the display-space
conversion of the source's mean color.  This holds for every pixelwise
conversion pair. -/
theorem C3_uniform_images_nan (toLAB : ℕ × ℕ × ℕ → ℚ × ℚ × ℚ)
    (fromLAB : ℕ × ℕ × ℕ → ℕ × ℕ × ℕ) :
    IsImageStds (cvtImage8F toLAB ⟨2, 2, List.replicate 4 (200, 50, 50)⟩)
      (F.fin 0) (F.fin 0) (F.fin 0) ∧
    IsImageStds (cvtImage8F toLAB ⟨2, 2, List.replicate 4 (100, 100, 100)⟩)
      (F.fin 0) (F.fin 0) (F.fin 0) ∧
    (remapImage (cvtImage8F toLAB ⟨2, 2, List.replicate 4 (100, 100, 100)⟩)
        (image_stats (cvtImage8F toLAB ⟨2, 2, List.replicate 4 (100, 100, 100)⟩)
          (F.fin 0) (F.fin 0) (F.fin 0))
        (image_stats (cvtImage8F toLAB ⟨2, 2, List.replicate 4 (200, 50, 50)⟩)
          (F.fin 0) (F.fin 0) (F.fin 0))).pix =
      List.replicate 4 (F.nan, F.nan, F.nan) ∧
    color_transfer toLAB fromLAB ⟨2, 2, List.replicate 4 (200, 50, 50)⟩
      ⟨2, 2, List.replicate 4 (100, 100, 100)⟩
      (F.fin 0) (F.fin 0) (F.fin 0) (F.fin 0) (F.fin 0) (F.fin 0) =
      ⟨2, 2, List.replicate 4 (fromLAB (0, 0, 0))⟩ := by
  refine ⟨isImageStds_uniform toLAB _ (by norm_num),
    isImageStds_uniform toLAB _ (by norm_num), ?_, ?_⟩
  · simp only [remapImage, image_stats, cvtImage8F, List.map_replicate]
    norm_num [F.div, F.mul_nan_left, F.add_nan_left]
  · simp only [color_transfer, remapImage, clipImage, castImage, cvtImage88,
      cvtImage8F, image_stats, List.map_replicate]
    norm_num [F.div, F.mul_nan_left, F.add_nan_left, clip255, castU8_nan]

/-- Counterexample to Claim C3 as stated: with the identity conversion model,
`color_transfer` on the 2×2 uniform source (200,50,50) and uniform target
(100,100,100) returns the uniform image (0,0,0) (the NaN-poisoned remap cast
to 0), while the display-space conversion of the source's mean color is
(200,50,50). -/
theorem C3_counterexample :
    IsImageStds (cvtImage8F toLAB_id ⟨2, 2, List.replicate 4 (200, 50, 50)⟩)
      (F.fin 0) (F.fin 0) (F.fin 0) ∧
    IsImageStds (cvtImage8F toLAB_id ⟨2, 2, List.replicate 4 (100, 100, 100)⟩)
      (F.fin 0) (F.fin 0) (F.fin 0) ∧
    color_transfer toLAB_id fromLAB_id ⟨2, 2, List.replicate 4 (200, 50, 50)⟩
      ⟨2, 2, List.replicate 4 (100, 100, 100)⟩
      (F.fin 0) (F.fin 0) (F.fin 0) (F.fin 0) (F.fin 0) (F.fin 0) =
      ⟨2, 2, List.replicate 4 (0, 0, 0)⟩ ∧
    npMean (chanL (cvtImage8F toLAB_id ⟨2, 2, List.replicate 4 (200, 50, 50)⟩)) =
      F.fin 200 ∧
    npMean (chanA (cvtImage8F toLAB_id ⟨2, 2, List.replicate 4 (200, 50, 50)⟩)) =
      F.fin 50 ∧
    fromLAB_id (castU8 (clip255 (F.fin 200)), castU8 (clip255 (F.fin 50)),
      castU8 (clip255 (F.fin 50))) = (200, 50, 50) ∧
    ((0, 0, 0) : ℕ × ℕ × ℕ) ≠ (200, 50, 50) := by
  refine ⟨?_, ?_, ?_, ?_, ?_, ?_, by decide⟩
  · refine ⟨?_, ?_, ?_⟩ <;>
    · apply isNpStd_of_var (r := 0) (by norm_num)
      rw [npVar_of_ne_nil (by simp [chanL, chanA, chanB, cvtImage8F])]
      simp only [chanL, chanA, chanB, cvtImage8F, toLAB_id,
        List.replicate, List.map_cons, List.map_nil, List.length_cons,
        List.length_nil, List.sum_cons, List.sum_nil]
      norm_num
  · refine ⟨?_, ?_, ?_⟩ <;>
    · apply isNpStd_of_var (r := 0) (by norm_num)
      rw [npVar_of_ne_nil (by simp [chanL, chanA, chanB, cvtImage8F])]
      simp only [chanL, chanA, chanB, cvtImage8F, toLAB_id,
        List.replicate, List.map_cons, List.map_nil, List.length_cons,
        List.length_nil, List.sum_cons, List.sum_nil]
      norm_num
  · simp only [color_transfer, remapImage, clipImage, castImage, cvtImage88,
      cvtImage8F, image_stats, List.map_replicate]
    norm_num [F.div, F.mul_nan_left, F.add_nan_left, clip255, castU8_nan,
      fromLAB_id]
  · rw [show chanL (cvtImage8F toLAB_id ⟨2, 2, List.replicate 4 (200, 50, 50)⟩) =
      List.replicate 4 ((200 : ℚ)) from by simp [chanL, cvtImage8F, toLAB_id]]
    exact npMean_replicate (by norm_num) 200
  · rw [show chanA (cvtImage8F toLAB_id ⟨2, 2, List.replicate 4 (200, 50, 50)⟩) =
      List.replicate 4 ((50 : ℚ)) from by simp [chanA, cvtImage8F, toLAB_id]]
    exact npMean_replicate (by norm_num) 50
  · simp only [clip255, castU8, qtrunc, fromLAB_id]
    norm_num
    exact ⟨rfl, rfl⟩

lemma isNpStd_nil {s : F} (h : IsNpStd [] s) : s = F.nan := by
  unfold IsNpStd at h
  have hv : npVar [] = F.nan := by simp [npVar]
  rw [hv] at h
  cases s with
  | fin r => exact h.elim
  | inf => exact h.elim
  | ninf => exact h.elim
  | nan => rfl

/-- Claim C4 (amended): for an image with zero pixels, the statistics
computation does not raise an `EmptyImage` error — no such error exists in
the code.  `image_stats` returns a value in which every mean and every
standard deviation is NaN (numpy emits a RuntimeWarning and yields NaN on
empty data).  It does not hang: it is a total function. -/
theorem C4_empty_image_stats (img : ImgF) (sl sa sb : F)
    (hempty : img.pix = []) (hstds : IsImageStds img sl sa sb) :
    image_stats img sl sa sb =
      ⟨F.nan, F.nan, F.nan, F.nan, F.nan, F.nan⟩ := by
  obtain ⟨h0, h1, h2⟩ := hstds
  rw [show chanL img = [] from by simp [chanL, hempty]] at h0
  rw [show chanA img = [] from by simp [chanA, hempty]] at h1
  rw [show chanB img = [] from by simp [chanB, hempty]] at h2
  rw [isNpStd_nil h0, isNpStd_nil h1, isNpStd_nil h2] at *
  simp [image_stats, chanL, chanA, chanB, npMean, hempty]

/-- Witness for C4 at the concrete empty 0×5 image. -/
theorem C4_empty_image_stats_witness :
    image_stats ⟨0, 5, []⟩ F.nan F.nan F.nan =
      ⟨F.nan, F.nan, F.nan, F.nan, F.nan, F.nan⟩ := by
  apply C4_empty_image_stats ⟨0, 5, []⟩ F.nan F.nan F.nan rfl
  refine ⟨?_, ?_, ?_⟩ <;>
  · unfold IsNpStd
    try rw [show npVar (chanL (⟨0, 5, []⟩ : ImgF)) = F.nan from by
      simp [npVar, chanL]]
    try rw [show npVar (chanA (⟨0, 5, []⟩ : ImgF)) = F.nan from by
      simp [npVar, chanA]]
    try rw [show npVar (chanB (⟨0, 5, []⟩ : ImgF)) = F.nan from by
      simp [npVar, chanB]]
    trivial

/-- Counterexample to Claim C4 as stated: on the empty 0×5 image the
statistics computation returns a result — the all-NaN statistics — rather
than failing with an `EmptyImage` error (the code performs no validation and
defines no such error). -/
theorem C4_counterexample :
    image_stats ⟨0, 5, []⟩ F.nan F.nan F.nan =
      LabStats.mk F.nan F.nan F.nan F.nan F.nan F.nan ∧
    IsImageStds ⟨0, 5, []⟩ F.nan F.nan F.nan ∧
    npMean (chanL (⟨0, 5, []⟩ : ImgF)) = F.nan := by
  refine ⟨?_, ⟨?_, ?_, ?_⟩, ?_⟩
  · simp [image_stats, chanL, chanA, chanB, npMean]
  · unfold IsNpStd
    rw [show npVar (chanL (⟨0, 5, []⟩ : ImgF)) = F.nan from by
      simp [npVar, chanL]]
    trivial
  · unfold IsNpStd
    rw [show npVar (chanA (⟨0, 5, []⟩ : ImgF)) = F.nan from by
      simp [npVar, chanA]]
    trivial
  · unfold IsNpStd
    rw [show npVar (chanB (⟨0, 5, []⟩ : ImgF)) = F.nan from by
      simp [npVar, chanB]]
    trivial
  · simp [npMean, chanL]

/-- The transfer-space image re-embedded into the possibly-non-finite value
type: the identity remap (what the remap stage amounts to when all statistics
coincide and the scale factors are 1). -/
def finImage (img : ImgF) : ImgN :=
  { height := img.height, width := img.width
    pix := img.pix.map (fun p => (F.fin p.1, F.fin p.2.1, F.fin p.2.2)) }

/-- Claim C5 (amended): for every image `I` each of whose transfer-space
channels has a nonzero standard deviation, `color_transfer(I, I)` is exactly
the color-space round trip of `I` (convert, clip, cast to uint8, convert
back): the remap stage is the identity because each scale factor is
`std/std = 1` and the mean shift cancels.  (For an image with a
zero-variance channel the remap produces NaN instead — see the
counterexample; the claimed ≤2 bound is a property of the external cv2
conversion round trip, outside the embedded code.) -/
theorem C5_self_transfer_roundtrip (toLAB : ℕ × ℕ × ℕ → ℚ × ℚ × ℚ)
    (fromLAB : ℕ × ℕ × ℕ → ℕ × ℕ × ℕ) (I : Img8) (r1 r2 r3 : ℚ)
    (h1 : r1 ≠ 0) (h2 : r2 ≠ 0) (h3 : r3 ≠ 0) (hI : I.pix ≠ [])
    (hstds : IsImageStds (cvtImage8F toLAB I) (F.fin r1) (F.fin r2) (F.fin r3)) :
    color_transfer toLAB fromLAB I I
      (F.fin r1) (F.fin r2) (F.fin r3) (F.fin r1) (F.fin r2) (F.fin r3) =
      cvtImage88 fromLAB (castImage (clipImage (finImage (cvtImage8F toLAB I)))) := by
  have hremap : remapImage (cvtImage8F toLAB I)
      (image_stats (cvtImage8F toLAB I) (F.fin r1) (F.fin r2) (F.fin r3))
      (image_stats (cvtImage8F toLAB I) (F.fin r1) (F.fin r2) (F.fin r3)) =
      finImage (cvtImage8F toLAB I) := by
    have hmL := npMean_of_ne_nil
      (show chanL (cvtImage8F toLAB I) ≠ [] from by simp [chanL, cvtImage8F, hI])
    have hmA := npMean_of_ne_nil
      (show chanA (cvtImage8F toLAB I) ≠ [] from by simp [chanA, cvtImage8F, hI])
    have hmB := npMean_of_ne_nil
      (show chanB (cvtImage8F toLAB I) ≠ [] from by simp [chanB, cvtImage8F, hI])
    simp only [remapImage, finImage, image_stats, ImgN.mk.injEq, true_and]
    apply List.map_congr_left
    intro p _
    rw [hmL, hmA, hmB]
    simp only [F.div, F.sub, F.neg, F.add, F.mul, h1, h2, h3, if_neg]
    rw [div_self h1, div_self h2, div_self h3]
    norm_num
  rw [color_transfer, hremap]

/-- Witness for C5 at the 1×2 image with channel data [0,2] (std 1 in every
channel): the self-transfer equals the round trip. -/
theorem C5_self_transfer_roundtrip_witness :
    color_transfer toLAB_id fromLAB_id ⟨1, 2, [(0, 0, 0), (2, 2, 2)]⟩
      ⟨1, 2, [(0, 0, 0), (2, 2, 2)]⟩
      (F.fin 1) (F.fin 1) (F.fin 1) (F.fin 1) (F.fin 1) (F.fin 1) =
      cvtImage88 fromLAB_id (castImage (clipImage (finImage
        (cvtImage8F toLAB_id ⟨1, 2, [(0, 0, 0), (2, 2, 2)]⟩)))) := by
  apply C5_self_transfer_roundtrip toLAB_id fromLAB_id
    ⟨1, 2, [(0, 0, 0), (2, 2, 2)]⟩ 1 1 1 one_ne_zero one_ne_zero one_ne_zero
    (by simp)
  refine ⟨?_, ?_, ?_⟩ <;>
  · apply isNpStd_of_var (r := 1) (by norm_num)
    rw [npVar_of_ne_nil (by simp [chanL, chanA, chanB, cvtImage8F])]
    simp only [chanL, chanA, chanB, cvtImage8F, toLAB_id, List.map_cons,
      List.map_nil, List.length_cons, List.length_nil, List.sum_cons,
      List.sum_nil]
    norm_num

/-- Counterexample to Claim C5 as stated: for the uniform 2×2 image
(100,100,100) — a valid 3-channel 8-bit image with at least one pixel —
`transferColor(I, I)` does not reproduce `I` within a per-channel difference
of 2: every std is 0, the remap stage is `0/0 = NaN` everywhere, and (with
the identity conversion model) the output is the uniform image (0,0,0),
which differs from 100 by 100 on the 8-bit scale. -/
theorem C5_counterexample :
    IsImageStds (cvtImage8F toLAB_id ⟨2, 2, List.replicate 4 (100, 100, 100)⟩)
      (F.fin 0) (F.fin 0) (F.fin 0) ∧
    color_transfer toLAB_id fromLAB_id ⟨2, 2, List.replicate 4 (100, 100, 100)⟩
      ⟨2, 2, List.replicate 4 (100, 100, 100)⟩
      (F.fin 0) (F.fin 0) (F.fin 0) (F.fin 0) (F.fin 0) (F.fin 0) =
      ⟨2, 2, List.replicate 4 (0, 0, 0)⟩ ∧
    (⟨2, 2, List.replicate 4 (100, 100, 100)⟩ : Img8).pix.get? 0 =
      some (100, 100, 100) ∧
    ¬((100 : ℤ) - 0).natAbs ≤ 2 := by
  refine ⟨isImageStds_uniform toLAB_id _ (by norm_num), ?_, by simp, by decide⟩
  simp only [color_transfer, remapImage, clipImage, castImage, cvtImage88,
    cvtImage8F, image_stats, List.map_replicate]
  norm_num [F.div, F.mul_nan_left, F.add_nan_left, clip255, castU8_nan,
    fromLAB_id]

lemma getCF_clipPixel (c : Fin 3) (p : F × F × F) :
    getCF c (clip255 p.1, clip255 p.2.1, clip255 p.2.2) = clip255 (getCF c p) := by
  fin_cases c <;> rfl

lemma getC8_castPixel (c : Fin 3) (x y z : F) :
    getC8 c (castU8 x, castU8 y, castU8 z) = castU8 (getCF c (x, y, z)) := by
  fin_cases c <;> rfl

/-- Claim C6: whenever the affine remap pushes some channel value of some
pixel below 0 (resp. above 255), the value after the clipping stage is
exactly 0 (resp. exactly 255), and the uint8 byte that reaches the output
stage is exactly 0 (resp. 255): no wrap-around or overflow artifact. -/
theorem C6_clipping_saturates (tar : ImgF) (tarSt srcSt : LabStats) (i : ℕ)
    (p : F × F × F) (c : Fin 3) (r : ℚ)
    (hp : (remapImage tar tarSt srcSt).pix.get? i = some p)
    (hc : getCF c p = F.fin r) :
    (r < 0 →
      ((clipImage (remapImage tar tarSt srcSt)).pix.get? i).map (getCF c) =
        some (F.fin 0) ∧
      ((castImage (clipImage (remapImage tar tarSt srcSt))).pix.get? i).map
        (getC8 c) = some 0) ∧
    (255 < r →
      ((clipImage (remapImage tar tarSt srcSt)).pix.get? i).map (getCF c) =
        some (F.fin 255) ∧
      ((castImage (clipImage (remapImage tar tarSt srcSt))).pix.get? i).map
        (getC8 c) = some 255) := by
  have hgetclip :
      ((clipImage (remapImage tar tarSt srcSt)).pix.get? i).map (getCF c) =
        some (clip255 (getCF c p)) := by
    simp only [clipImage, List.get?_map, hp, Option.map_some']
    rw [getCF_clipPixel]
  have hgetcast :
      ((castImage (clipImage (remapImage tar tarSt srcSt))).pix.get? i).map
        (getC8 c) = some (castU8 (clip255 (getCF c p))) := by
    simp only [castImage, clipImage, List.get?_map, hp, Option.map_some']
    rw [getC8_castPixel, getCF_clipPixel]
  constructor
  · intro hneg
    have hclip : clip255 (getCF c p) = F.fin 0 := by
      rw [hc]
      simp only [clip255, F.fin.injEq]
      rw [max_eq_right hneg.le, min_eq_left (by norm_num : (0 : ℚ) ≤ 255)]
    rw [hgetclip, hclip, hgetcast, hclip]
    refine ⟨rfl, ?_⟩
    norm_num [castU8, qtrunc]
  · intro hpos
    have hclip : clip255 (getCF c p) = F.fin 255 := by
      rw [hc]
      simp only [clip255, F.fin.injEq]
      rw [max_eq_left (by linarith : (0 : ℚ) ≤ r),
        min_eq_right (by linarith : (255 : ℚ) ≤ r)]
    rw [hgetclip, hclip, hgetcast, hclip]
    refine ⟨rfl, ?_⟩
    norm_num [castU8, qtrunc]
    decide

/-- Witness for C6: the 1×1 target with pixel (0,0,0); statistics drive the
L value to -10 (clipped to 0, byte 0). -/
theorem C6_clipping_saturates_witness :
    ((clipImage (remapImage (⟨1, 1, [(0, 0, 0)]⟩ : ImgF)
        ⟨F.fin 10, F.fin 1, F.fin 0, F.fin 1, F.fin 0, F.fin 1⟩
        ⟨F.fin 0, F.fin 1, F.fin 300, F.fin 1, F.fin 0, F.fin 1⟩)).pix.get? 0).map
      (getCF 0) = some (F.fin 0) ∧
    ((castImage (clipImage (remapImage (⟨1, 1, [(0, 0, 0)]⟩ : ImgF)
        ⟨F.fin 10, F.fin 1, F.fin 0, F.fin 1, F.fin 0, F.fin 1⟩
        ⟨F.fin 0, F.fin 1, F.fin 300, F.fin 1, F.fin 0, F.fin 1⟩))).pix.get? 0).map
      (getC8 0) = some 0 := by
  have h := (C6_clipping_saturates (⟨1, 1, [(0, 0, 0)]⟩ : ImgF)
    ⟨F.fin 10, F.fin 1, F.fin 0, F.fin 1, F.fin 0, F.fin 1⟩
    ⟨F.fin 0, F.fin 1, F.fin 300, F.fin 1, F.fin 0, F.fin 1⟩ 0
    (F.fin (-10), F.fin 300, F.fin 0) 0 (-10)
    (by
      simp only [remapImage, List.map_cons, List.map_nil, List.get?]
      norm_num [F.div, F.sub, F.neg, F.add, F.mul])
    rfl).1 (by norm_num)
  exact h

/-- Claim C8: `color_transfer(source, target)` returns an image whose height
and width are the target's, whatever the source's dimensions. -/
theorem C8_output_dimensions (toLAB : ℕ × ℕ × ℕ → ℚ × ℚ × ℚ)
    (fromLAB : ℕ × ℕ × ℕ → ℕ × ℕ × ℕ) (source target : Img8)
    (sl sa sb tl ta tb : F)
    (hsh : 0 < source.height) (hsw : 0 < source.width)
    (hth : 0 < target.height) (htw : 0 < target.width) :
    (color_transfer toLAB fromLAB source target sl sa sb tl ta tb).height =
      target.height ∧
    (color_transfer toLAB fromLAB source target sl sa sb tl ta tb).width =
      target.width :=
  ⟨rfl, rfl⟩

/-- Witness for C8: a 1×1 source and a 2×3 target give a 2×3 output. -/
theorem C8_output_dimensions_witness :
    (color_transfer toLAB_id fromLAB_id ⟨1, 1, [(7, 7, 7)]⟩
      ⟨2, 3, List.replicate 6 (9, 9, 9)⟩ (F.fin 0) (F.fin 0) (F.fin 0)
      (F.fin 0) (F.fin 0) (F.fin 0)).height = 2 ∧
    (color_transfer toLAB_id fromLAB_id ⟨1, 1, [(7, 7, 7)]⟩
      ⟨2, 3, List.replicate 6 (9, 9, 9)⟩ (F.fin 0) (F.fin 0) (F.fin 0)
      (F.fin 0) (F.fin 0) (F.fin 0)).width = 3 :=
  C8_output_dimensions toLAB_id fromLAB_id ⟨1, 1, [(7, 7, 7)]⟩
    ⟨2, 3, List.replicate 6 (9, 9, 9)⟩ (F.fin 0) (F.fin 0) (F.fin 0)
    (F.fin 0) (F.fin 0) (F.fin 0) one_pos one_pos (by norm_num) (by norm_num)

/-- Claim C10: the conversion back to display space quantizes each clipped
channel value by truncation toward zero (the uint8 astype), not rounding to
nearest (199.5 becomes 199); because clipping to [0,255] precedes the cast,
the composite equals plain truncation with no modulo-256 wrap and stays in
[0,255].  Without the clip the cast would wrap: the model value for 300 is
44 = 300 mod 256, but after clipping it is exactly 255. -/
theorem C10_cast_truncates_after_clip :
    (∀ q : ℚ, castU8 (clip255 (F.fin q)) = (qtrunc (min (max q 0) 255)).toNat ∧
      castU8 (clip255 (F.fin q)) ≤ 255) ∧
    castU8 (clip255 (F.fin (399 / 2))) = 199 ∧
    castU8 (F.fin 300) = 44 ∧
    castU8 (clip255 (F.fin 300)) = 255 ∧
    castU8 (clip255 (F.fin (-10))) = 0 := by
  have hmain : ∀ q : ℚ, castU8 (clip255 (F.fin q)) =
      (qtrunc (min (max q 0) 255)).toNat ∧
      castU8 (clip255 (F.fin q)) ≤ 255 := by
    intro q
    have h0 : (0 : ℚ) ≤ min (max q 0) 255 :=
      le_min (le_max_right q 0) (by norm_num)
    have h255 : min (max q 0) 255 ≤ 255 := min_le_right _ _
    have htr : qtrunc (min (max q 0) 255) = ⌊min (max q 0) 255⌋ := by
      simp only [qtrunc]
      rw [if_pos h0]
    have hfl0 : (0 : ℤ) ≤ ⌊min (max q 0) 255⌋ := Int.floor_nonneg.mpr h0
    have hfl255 : ⌊min (max q 0) 255⌋ ≤ 255 := by
      have h := Int.floor_mono h255
      simpa using h
    have hcast : castU8 (clip255 (F.fin q)) =
        (qtrunc (min (max q 0) 255)).toNat := by
      simp only [clip255, castU8]
      rw [Int.emod_eq_of_lt (by rw [htr]; exact hfl0) (by rw [htr]; omega)]
    refine ⟨hcast, ?_⟩
    rw [hcast, htr]
    omega
  refine ⟨hmain, ?_, ?_, ?_, ?_⟩
  · rw [(hmain (399 / 2)).1]
    rw [show min (max (399 / 2 : ℚ) 0) 255 = 399 / 2 from by
      rw [max_eq_left (by norm_num), min_eq_left (by norm_num)]]
    rw [show qtrunc (399 / 2 : ℚ) = 199 from by
      simp only [qtrunc]
      rw [if_pos (by norm_num)]
      rw [Int.floor_eq_iff]
      norm_num]
    rfl
  · simp only [castU8, qtrunc]
    norm_num
    decide
  · rw [(hmain 300).1]
    rw [show min (max (300 : ℚ) 0) 255 = 255 from by
      rw [max_eq_left (by norm_num), min_eq_right (by norm_num)]]
    simp only [qtrunc]
    rw [if_pos (by norm_num)]
    norm_num
    decide
  · rw [(hmain (-10)).1]
    rw [show min (max (-10 : ℚ) 0) 255 = 0 from by
      rw [max_eq_right (by norm_num), min_eq_left (by norm_num)]]
    rfl

/-! Heap model for the frame-effect claim: numpy arrays live at numeric
references.  `cv2.cvtColor`, `cv2.split`, the scaling multiplication,
`np.clip`, `cv2.merge` and `astype` all allocate fresh arrays, while the
augmented assignments `-=` and `+=` write in place to the array they are
given.  Values are modelled at the `F` level. -/

/-- A heap value: a single-channel array (as produced by `cv2.split`) or a
3-channel image array. -/
inductive NpVal where
  | chan : List F → NpVal
  | img : List (F × F × F) → NpVal

/-- The heap: a bump allocator counter and the memory. -/
structure Heap where
  next : ℕ
  mem : ℕ → Option NpVal

/-- Allocate a fresh array. -/
def Heap.alloc (h : Heap) (v : NpVal) : ℕ × Heap :=
  (h.next, ⟨h.next + 1, Function.update h.mem h.next (some v)⟩)

/-- Overwrite the array at `r` (an in-place numpy operation). -/
def Heap.write (h : Heap) (r : ℕ) (v : NpVal) : Heap :=
  ⟨h.next, Function.update h.mem r (some v)⟩

/-- Read a 3-channel image array. -/
def Heap.readImg (h : Heap) (r : ℕ) : List (F × F × F) :=
  match h.mem r with
  | some (NpVal.img ps) => ps
  | _ => []

/-- Read a single-channel array. -/
def Heap.readChan (h : Heap) (r : ℕ) : List F :=
  match h.mem r with
  | some (NpVal.chan xs) => xs
  | _ => []

/-- `cv2.cvtColor(...)`: allocates a converted copy. -/
def cvtColorH (f : F × F × F → F × F × F) (h : Heap) (r : ℕ) : ℕ × Heap :=
  h.alloc (NpVal.img ((h.readImg r).map f))

/-- `cv2.split(...)`: allocates three channel copies. -/
def splitH (h : Heap) (r : ℕ) : (ℕ × ℕ × ℕ) × Heap :=
  let ps := h.readImg r
  let al := h.alloc (NpVal.chan (ps.map (fun p => p.1)))
  let aa := al.2.alloc (NpVal.chan (ps.map (fun p => p.2.1)))
  let ab := aa.2.alloc (NpVal.chan (ps.map (fun p => p.2.2)))
  ((al.1, aa.1, ab.1), ab.2)

/-- numpy `.mean()` at the `F` level. -/
def npMeanF (xs : List F) : F :=
  if xs.length = 0 then F.nan
  else F.div (xs.foldl F.add (F.fin 0)) (F.fin (xs.length : ℚ))

/-- `image_stats` in the heap model: `cv2.split` allocates three channel
copies and the means are read off them (the stds are floating-point square
roots, supplied as arguments to `color_transfer_heap` as in the pure model). -/
def image_statsH (h : Heap) (r : ℕ) : (F × F × F) × Heap :=
  let s := splitH h r
  ((npMeanF (s.2.readChan s.1.1), npMeanF (s.2.readChan s.1.2.1),
    npMeanF (s.2.readChan s.1.2.2)), s.2)

/-- `l -= m`: in-place scalar subtraction. -/
def isubH (h : Heap) (r : ℕ) (m : F) : Heap :=
  h.write r (NpVal.chan ((h.readChan r).map (fun x => F.sub x m)))

/-- `l = s * l`: allocates the scaled array (the Python name is rebound). -/
def scaleH (h : Heap) (r : ℕ) (s : F) : ℕ × Heap :=
  h.alloc (NpVal.chan ((h.readChan r).map (fun x => F.mul s x)))

/-- `l += m`: in-place scalar addition. -/
def iaddH (h : Heap) (r : ℕ) (m : F) : Heap :=
  h.write r (NpVal.chan ((h.readChan r).map (fun x => F.add x m)))

/-- `l = np.clip(l, 0, 255)`: allocates the clipped array. -/
def clipH (h : Heap) (r : ℕ) : ℕ × Heap :=
  h.alloc (NpVal.chan ((h.readChan r).map clip255))

/-- `cv2.merge([l, a, b])`: allocates the interleaved image. -/
def mergeH (h : Heap) (rl ra rb : ℕ) : ℕ × Heap :=
  h.alloc (NpVal.img ((h.readChan rl).zip ((h.readChan ra).zip (h.readChan rb))))

/-- `transfer.astype("uint8")`: allocates the cast image. -/
def astypeH (h : Heap) (r : ℕ) : ℕ × Heap :=
  h.alloc (NpVal.img ((h.readImg r).map (fun p =>
    (F.fin (castU8 p.1), F.fin (castU8 p.2.1), F.fin (castU8 p.2.2)))))

/-- The body of `color_transfer` over the heap, statement by statement:
convert both inputs (allocating), compute both image statistics (each
allocating split copies), split the converted target, subtract the target
means in place, rebind each channel to a freshly allocated scaled array,
add the source means in place, rebind to freshly allocated clipped arrays,
merge, cast to uint8 and convert back.  Returns the result reference and
the final heap. -/
def color_transfer_heap (toLAB fromLAB : F × F × F → F × F × F)
    (lStdSrc aStdSrc bStdSrc lStdTar aStdTar bStdTar : F)
    (h0 : Heap) (rSource rTarget : ℕ) : ℕ × Heap :=
  let s1 := cvtColorH toLAB h0 rSource
  let s2 := cvtColorH toLAB s1.2 rTarget
  let stSrc := image_statsH s2.2 s1.1
  let stTar := image_statsH stSrc.2 s2.1
  let sp := splitH stTar.2 s2.1
  let h3 := isubH sp.2 sp.1.1 stTar.1.1
  let h4 := isubH h3 sp.1.2.1 stTar.1.2.1
  let h5 := isubH h4 sp.1.2.2 stTar.1.2.2
  let m1 := scaleH h5 sp.1.1 (F.div lStdTar lStdSrc)
  let m2 := scaleH m1.2 sp.1.2.1 (F.div aStdTar aStdSrc)
  let m3 := scaleH m2.2 sp.1.2.2 (F.div bStdTar bStdSrc)
  let h6 := iaddH m3.2 m1.1 stSrc.1.1
  let h7 := iaddH h6 m2.1 stSrc.1.2.1
  let h8 := iaddH h7 m3.1 stSrc.1.2.2
  let c1 := clipH h8 m1.1
  let c2 := clipH c1.2 m2.1
  let c3 := clipH c2.2 m3.1
  let mg := mergeH c3.2 c1.1 c2.1 c3.1
  let a1 := astypeH mg.2 mg.1
  cvtColorH fromLAB a1.2 a1.1

/-- Claim C9: `color_transfer` leaves both caller-owned input buffers
unchanged and returns a newly produced buffer: starting from a heap holding
exactly the source image at reference 0 and the target image at reference 1,
after running the whole body both references still hold the same arrays, and
the result reference is fresh (≥ 2).  The in-place `-=`/`+=` writes only
ever hit the channel copies freshly allocated by `cv2.split`. -/
theorem C9_inputs_unchanged (toLAB fromLAB : F × F × F → F × F × F)
    (s1 s2 s3 s4 s5 s6 : F) (S T : List (F × F × F)) :
    ((color_transfer_heap toLAB fromLAB s1 s2 s3 s4 s5 s6
        ⟨2, fun r => if r = 0 then some (NpVal.img S)
          else if r = 1 then some (NpVal.img T) else none⟩ 0 1).2.mem 0 =
      some (NpVal.img S)) ∧
    ((color_transfer_heap toLAB fromLAB s1 s2 s3 s4 s5 s6
        ⟨2, fun r => if r = 0 then some (NpVal.img S)
          else if r = 1 then some (NpVal.img T) else none⟩ 0 1).2.mem 1 =
      some (NpVal.img T)) ∧
    2 ≤ (color_transfer_heap toLAB fromLAB s1 s2 s3 s4 s5 s6
        ⟨2, fun r => if r = 0 then some (NpVal.img S)
          else if r = 1 then some (NpVal.img T) else none⟩ 0 1).1 := by
  refine ⟨rfl, rfl, ?_⟩
  rw [show (color_transfer_heap toLAB fromLAB s1 s2 s3 s4 s5 s6
      ⟨2, fun r => if r = 0 then some (NpVal.img S)
        else if r = 1 then some (NpVal.img T) else none⟩ 0 1).1 = 21 from rfl]
  norm_num
